import Mathlib

/-!
Shallow embedding of the QNAPBackup scheduling core
(source files backend/scheduler.py and the task-dispatch part of backend/main.py).

Times are modelled as natural numbers counting minutes; calendar day 0 is
1970-01-01.  Python strings that carry structured data in the source
(time_of_day strings, run_date strings, cron expressions, ISO timestamps)
are embedded as the structured values themselves; plain text fields stay
Lean strings.  Nondeterministic inputs of the source (datetime.now(),
uuid4(), the outcome of the awaited backup callback) are explicit
parameters of the embedded operations.
-/

/-- ScheduleType enum of scheduler.py (str-valued Enum with six members). -/
inductive ScheduleType
  | cron
  | interval
  | daily
  | weekly
  | monthly
  | once

deriving instance DecidableEq for ScheduleType

/-- ScheduleStatus enum of scheduler.py. -/
inductive ScheduleStatus
  | active
  | paused
  | disabled

deriving instance DecidableEq for ScheduleStatus

/-- Underlying string value of a ScheduleType member (the str payload that
json.dump writes, since the enum subclasses str). -/
def ScheduleType.value : ScheduleType → String
  | .cron => "cron"
  | .interval => "interval"
  | .daily => "daily"
  | .weekly => "weekly"
  | .monthly => "monthly"
  | .once => "once"

/-- Underlying string value of a ScheduleStatus member. -/
def ScheduleStatus.value : ScheduleStatus → String
  | .active => "active"
  | .paused => "paused"
  | .disabled => "disabled"

/-- Inverse of ScheduleType.value: the ScheduleType(raw) constructor call of
from_dict, which raises ValueError (here: none) on an unknown value. -/
def scheduleTypeOfString : String → Option ScheduleType
  | "cron" => some .cron
  | "interval" => some .interval
  | "daily" => some .daily
  | "weekly" => some .weekly
  | "monthly" => some .monthly
  | "once" => some .once
  | _ => none

/-- Inverse of ScheduleStatus.value, none on an unknown value. -/
def scheduleStatusOfString : String → Option ScheduleStatus
  | "active" => some .active
  | "paused" => some .paused
  | "disabled" => some .disabled
  | _ => none

/-- A parsed 5-field cron expression: the set of matching minutes, hours,
days of month, months and days of week (0 = Sunday in the day-of-week
field).  The source keeps the expression as a string and hands it to the
croniter library; the claims only depend on the matching semantics, so the
expression is embedded already parsed. -/
structure CronExpr where
  minutes : List Nat
  hours : List Nat
  dom : List Nat
  months : List Nat
  dow : List Nat

deriving instance DecidableEq for CronExpr

/-- ScheduleConfig dataclass of scheduler.py.  time_of_day "HH:MM" is the
pair (hour, minute); run_date and the ISO timestamps are minutes-since-epoch
naturals; cron_expression is the parsed expression. -/
structure ScheduleConfig where
  id : String
  name : String
  description : String
  backup_types : List String
  schedule_type : ScheduleType
  status : ScheduleStatus
  cron_expression : Option CronExpr
  interval_minutes : Option Nat
  time_of_day : Option (Nat × Nat)
  days_of_week : Option (List Nat)
  days_of_month : Option (List Nat)
  run_date : Option Nat
  created_at : Nat
  updated_at : Nat
  last_run : Option Nat
  next_run : Option Nat
  run_count : Nat
  last_status : Option String
  retry_on_failure : Bool
  max_retries : Nat
  notification_email : Option String
  sequential_execution : Bool

deriving instance DecidableEq for ScheduleConfig

/-- Day of month (1..31) of calendar day z, z counted in days since
1970-01-01, by the standard civil-from-days computation. -/
def civilDay (z : Nat) : Nat :=
  let z' := z + 719468
  let doe := z' % 146097
  let yoe := (doe - doe / 1460 + doe / 36524 - doe / 146096) / 365
  let doy := doe - (365 * yoe + yoe / 4 - yoe / 100)
  let mp := (5 * doy + 2) / 153
  doy - (153 * mp + 2) / 5 + 1

/-- Month (1..12) of calendar day z, days since 1970-01-01. -/
def civilMonth (z : Nat) : Nat :=
  let z' := z + 719468
  let doe := z' % 146097
  let yoe := (doe - doe / 1460 + doe / 36524 - doe / 146096) / 365
  let doy := doe - (365 * yoe + yoe / 4 - yoe / 100)
  let mp := (5 * doy + 2) / 153
  if mp < 10 then mp + 3 else mp - 9

/-- Day of week with 0 = Monday (the convention of the source's weekly
schedules), for calendar day z (1970-01-01 was a Thursday). -/
def dowMonday0 (z : Nat) : Nat :=
  (z + 3) % 7

/-- Day of week with 0 = Sunday (the cron day-of-week convention). -/
def dowSunday0 (z : Nat) : Nat :=
  (z + 4) % 7

/-- Fuelled linear search for the first minute at or after start that
satisfies p; none when the fuel runs out first. -/
def searchFrom (p : Nat → Bool) : Nat → Nat → Option Nat
  | 0, _ => none
  | fuel + 1, start => if p start then some start else searchFrom p fuel (start + 1)

/-- Minute t fires a daily schedule with minute-of-day target. -/
def fireDaily (target t : Nat) : Bool :=
  t % 1440 == target

/-- Minute t fires a weekly schedule: minute-of-day target on one of the
listed weekdays (0 = Monday). -/
def fireWeekly (target : Nat) (ds : List Nat) (t : Nat) : Bool :=
  t % 1440 == target && ds.contains (dowMonday0 (t / 1440))

/-- Minute t fires a monthly schedule: minute-of-day target on one of the
listed days of month; a day that does not exist in a month simply never
matches in that month. -/
def fireMonthly (target : Nat) (ds : List Nat) (t : Nat) : Bool :=
  t % 1440 == target && ds.contains (civilDay (t / 1440))

/-- Minute t matches a cron expression (all five fields match). -/
def cronMatches (c : CronExpr) (t : Nat) : Bool :=
  c.minutes.contains (t % 60) && c.hours.contains (t % 1440 / 60) &&
    c.dom.contains (civilDay (t / 1440)) && c.months.contains (civilMonth (t / 1440)) &&
    c.dow.contains (dowSunday0 (t / 1440))

/-- Modelled from the spec: the daily trigger of the external APScheduler
CronTrigger(hour, minute) used by _get_trigger / _calculate_next_run, whose
code is not part of this repository.  Per the spec it yields the next
occurrence of the given hour:minute strictly after the reference time;
out-of-range fields make trigger construction raise, which
_calculate_next_run catches and turns into none. -/
def nextDaily (h mi now : Nat) : Option Nat :=
  if h < 24 ∧ mi < 60 then searchFrom (fireDaily (60 * h + mi)) 1441 (now + 1) else none

/-- Modelled from the spec: the weekly trigger (external CronTrigger with a
day_of_week field).  Next occurrence of hour:minute on any of the given
weekdays (0 = Monday) strictly after the reference time; an empty or
out-of-range day set makes trigger construction raise, hence none. -/
def nextWeekly (h mi : Nat) (ds : List Nat) (now : Nat) : Option Nat :=
  if h < 24 ∧ mi < 60 ∧ ds ≠ [] ∧ (∀ d ∈ ds, d < 7) then
    searchFrom (fireWeekly (60 * h + mi) ds) 11521 (now + 1)
  else none

/-- Modelled from the spec: the monthly trigger (external CronTrigger with a
day field).  Next occurrence of hour:minute on any of the given days of
month strictly after the reference time, nonexistent days skipped; an empty
or out-of-range day set makes trigger construction raise, hence none.  The
search fuel covers 63 days, enough for every listed day that occurs at all
in the search window. -/
def nextMonthly (h mi : Nat) (ds : List Nat) (now : Nat) : Option Nat :=
  if h < 24 ∧ mi < 60 ∧ ds ≠ [] ∧ (∀ d ∈ ds, 1 ≤ d ∧ d ≤ 31) then
    searchFrom (fireMonthly (60 * h + mi) ds) 90721 (now + 1)
  else none

/-- Modelled from the spec: croniter's get_next, the next timestamp strictly
after the reference time matching the expression (external library); none
when no match exists within the bounded search horizon, mirroring the
raised-and-caught search failure of croniter on unsatisfiable
expressions. -/
def nextCron (c : CronExpr) (now : Nat) : Option Nat :=
  searchFrom (cronMatches c) 2160000 (now + 1)

/-- BackupScheduler._calculate_next_run of scheduler.py: dispatch on the
schedule type; the once branch returns the stored run_date unchanged; every
raised error (missing parameter, invalid trigger) is caught and becomes
none.  The interval branch follows the spec's trigger description
(reference time plus the interval). -/
def calculate_next_run (s : ScheduleConfig) (now : Nat) : Option Nat :=
  match s.schedule_type with
  | .cron =>
    match s.cron_expression with
    | some c => nextCron c now
    | none => none
  | .once => s.run_date
  | .interval =>
    match s.interval_minutes with
    | some m => some (now + m)
    | none => none
  | .daily =>
    match s.time_of_day with
    | some (h, mi) => nextDaily h mi now
    | none => none
  | .weekly =>
    match s.time_of_day, s.days_of_week with
    | some (h, mi), some ds => nextWeekly h mi ds now
    | _, _ => none
  | .monthly =>
    match s.time_of_day, s.days_of_month with
    | some (h, mi), some ds => nextMonthly h mi ds now
    | _, _ => none

/-- The serialized form of one schedule record: the JSON object written by
_save_schedules and read back by _load_schedules.  The enum fields are their
underlying string values (the str payload json.dump writes for a
str-subclass enum); every other field is stored as is. -/
structure RawSchedule where
  id : String
  name : String
  description : String
  backup_types : List String
  schedule_type : String
  status : String
  cron_expression : Option CronExpr
  interval_minutes : Option Nat
  time_of_day : Option (Nat × Nat)
  days_of_week : Option (List Nat)
  days_of_month : Option (List Nat)
  run_date : Option Nat
  created_at : Nat
  updated_at : Nat
  last_run : Option Nat
  next_run : Option Nat
  run_count : Nat
  last_status : Option String
  retry_on_failure : Bool
  max_retries : Nat
  notification_email : Option String
  sequential_execution : Bool

deriving instance DecidableEq for RawSchedule

/-- ScheduleConfig.to_dict (asdict) composed with the JSON serialization of
_save_schedules: every field keeps its stored value, the two enums become
their string values. -/
def to_dict (s : ScheduleConfig) : RawSchedule :=
  { id := s.id
    name := s.name
    description := s.description
    backup_types := s.backup_types
    schedule_type := s.schedule_type.value
    status := s.status.value
    cron_expression := s.cron_expression
    interval_minutes := s.interval_minutes
    time_of_day := s.time_of_day
    days_of_week := s.days_of_week
    days_of_month := s.days_of_month
    run_date := s.run_date
    created_at := s.created_at
    updated_at := s.updated_at
    last_run := s.last_run
    next_run := s.next_run
    run_count := s.run_count
    last_status := s.last_status
    retry_on_failure := s.retry_on_failure
    max_retries := s.max_retries
    notification_email := s.notification_email
    sequential_execution := s.sequential_execution }

/-- ScheduleConfig.from_dict: converts the two enum strings back through the
enum constructors (ValueError on an unknown value becomes none) and rebuilds
the dataclass from the stored fields. -/
def from_dict (r : RawSchedule) : Option ScheduleConfig :=
  match scheduleTypeOfString r.schedule_type, scheduleStatusOfString r.status with
  | some ty, some st =>
    some
      { id := r.id
        name := r.name
        description := r.description
        backup_types := r.backup_types
        schedule_type := ty
        status := st
        cron_expression := r.cron_expression
        interval_minutes := r.interval_minutes
        time_of_day := r.time_of_day
        days_of_week := r.days_of_week
        days_of_month := r.days_of_month
        run_date := r.run_date
        created_at := r.created_at
        updated_at := r.updated_at
        last_run := r.last_run
        next_run := r.next_run
        run_count := r.run_count
        last_status := r.last_status
        retry_on_failure := r.retry_on_failure
        max_retries := r.max_retries
        notification_email := r.notification_email
        sequential_execution := r.sequential_execution }
  | _, _ => none

/-- The per-record loop body of BackupScheduler._load_schedules: records are
parsed in file order; the first record whose from_dict raises aborts the
loop (the exception propagates to the handler around the whole loop), so the
records parsed before it are kept and everything from the failing record on
is dropped. -/
def loadLoop : List RawSchedule → List ScheduleConfig
  | [] => []
  | r :: rest =>
    match from_dict r with
    | some s => s :: loadLoop rest
    | none => []

/-- BackupScheduler._load_schedules: none models a file that cannot be read
or parsed as JSON at all (the exception is caught and startup proceeds with
zero schedules); some rs is the parsed schedules array. -/
def load_schedules (fileContents : Option (List RawSchedule)) : List ScheduleConfig :=
  match fileContents with
  | none => []
  | some rs => loadLoop rs

/-- One entry of ScheduleHistory (a history dict of scheduler.py); the entry
id (a uuid4 prefix in the source) and the timestamp are parameters. -/
structure HistoryEntry where
  eid : String
  schedule_id : String
  schedule_name : String
  backup_types : List String
  status : String
  duration_seconds : Nat
  message : String
  timestamp : Nat

deriving instance DecidableEq for HistoryEntry

/-- ScheduleHistory of scheduler.py: a newest-first list of entries capped
at max_entries. -/
structure ScheduleHistory where
  max_entries : Nat
  entries : List HistoryEntry

deriving instance DecidableEq for ScheduleHistory

/-- ScheduleHistory.add: build the entry, insert it at index 0, and when the
list then exceeds max_entries keep only the first max_entries entries. -/
def ScheduleHistory.add (h : ScheduleHistory) (schedule_id schedule_name : String)
    (backup_types : List String) (status : String) (duration_seconds : Nat)
    (message : String) (eid : String) (now : Nat) : ScheduleHistory :=
  let entry : HistoryEntry :=
    { eid := eid
      schedule_id := schedule_id
      schedule_name := schedule_name
      backup_types := backup_types
      status := status
      duration_seconds := duration_seconds
      message := message
      timestamp := now }
  let entries := entry :: h.entries
  if entries.length > h.max_entries then
    { h with entries := entries.take h.max_entries }
  else
    { h with entries := entries }

/-- Lookup in an association list, the embedding of a Python dict read. -/
def lookupA {κ α : Type} [DecidableEq κ] (k : κ) : List (κ × α) → Option α
  | [] => none
  | (k', v) :: rest => if k = k' then some v else lookupA k rest

/-- Replace the value stored under an existing key (the embedding of
mutating the object a dict maps a key to). -/
def updateA {κ α : Type} [DecidableEq κ] (k : κ) (v : α) : List (κ × α) → List (κ × α)
  | [] => []
  | (k', w) :: rest => if k = k' then (k', v) :: rest else (k', w) :: updateA k v rest

/-- Python dict assignment d[k] = v: overwrite when the key exists, append
otherwise. -/
def insertA {κ α : Type} [DecidableEq κ] (k : κ) (v : α) (l : List (κ × α)) : List (κ × α) :=
  if (lookupA k l).isSome then updateA k v l else l ++ [(k, v)]

/-- Apply a function to the value stored under a key, if present. -/
def modifyA {κ α : Type} [DecidableEq κ] (k : κ) (f : α → α) : List (κ × α) → List (κ × α)
  | [] => []
  | (k', v) :: rest => if k = k' then (k', f v) :: rest else (k', v) :: modifyA k f rest

/-- Outcome of the awaited backup-callback sequence of one firing: either
every invoked backup type completed, or some invocation raised with the
given message (str(e) in the source). -/
inductive CallbackOutcome
  | success
  | failure (msg : String)

deriving instance DecidableEq for CallbackOutcome

/-- The mutable state of a BackupScheduler that the claims depend on: the
schedules dict, the execution history, and the global backup-in-progress
gate. -/
structure SchedulerState where
  schedules : List (String × ScheduleConfig)
  history : ScheduleHistory
  running_backup : Bool

deriving instance DecidableEq for SchedulerState

/-- BackupScheduler._execute_scheduled_backup of scheduler.py, as the state
transformation of one complete firing.  startTime and now are the clock
readings at entry and at completion, eid the generated history-entry id.
The returned Bool records whether the firing passed the guards and entered
the invocation phase (the try block that awaits the backup callback); an
unknown id, a non-active schedule and an already-set gate all return with
the state unchanged and without invoking anything.  The failure branch sets
last_status only; the success branch also stamps last_run, increments
run_count and recomputes next_run.  Both branches append one history entry,
and the finally block clears the gate, so a completed firing leaves the
gate as it found it (false). -/
def execute_scheduled_backup (st : SchedulerState) (sid : String)
    (outcome : CallbackOutcome) (startTime now : Nat) (eid : String) :
    SchedulerState × Bool :=
  match lookupA sid st.schedules with
  | none => (st, false)
  | some schedule =>
    if schedule.status ≠ ScheduleStatus.active then (st, false)
    else if st.running_backup then (st, false)
    else
      match outcome with
      | .success =>
        let schedule' :=
          { schedule with
              last_run := some now
              run_count := schedule.run_count + 1
              last_status := some "success"
              next_run := calculate_next_run schedule now }
        ({ schedules := updateA sid schedule' st.schedules
           history :=
             st.history.add sid schedule.name schedule.backup_types "success"
               (now - startTime) "Backup completado correctamente" eid now
           running_backup := false }, true)
      | .failure msg =>
        let schedule' := { schedule with last_status := some "failed" }
        ({ schedules := updateA sid schedule' st.schedules
           history :=
             st.history.add sid schedule.name schedule.backup_types "failed"
               (now - startTime) msg eid now
           running_backup := false }, true)

/-- BackupScheduler.run_now: when the id exists, spawn the firing as a
separate task (asyncio.create_task, recorded here as the pending firing's
schedule id) and return True at once; the returned Bool is computed before
the firing runs and does not depend on its outcome.  Unknown id: (false,
nothing spawned). -/
def run_now (st : SchedulerState) (sid : String) : Bool × Option String :=
  if (lookupA sid st.schedules).isSome then (true, some sid) else (false, none)

/-- The updates dictionary passed to BackupScheduler.update_schedule: one
optional entry per dataclass field (none = the key is absent from the
dict).  Fields that are themselves optional in the dataclass carry the
whole new optional value. -/
structure ScheduleUpdates where
  id : Option String
  name : Option String
  description : Option String
  backup_types : Option (List String)
  schedule_type : Option ScheduleType
  status : Option ScheduleStatus
  cron_expression : Option (Option CronExpr)
  interval_minutes : Option (Option Nat)
  time_of_day : Option (Option (Nat × Nat))
  days_of_week : Option (Option (List Nat))
  days_of_month : Option (Option (List Nat))
  run_date : Option (Option Nat)
  created_at : Option Nat
  updated_at : Option Nat
  last_run : Option (Option Nat)
  next_run : Option (Option Nat)
  run_count : Option Nat
  last_status : Option (Option String)
  retry_on_failure : Option Bool
  max_retries : Option Nat
  notification_email : Option (Option String)
  sequential_execution : Option Bool

deriving instance DecidableEq for ScheduleUpdates

/-- setattr-if-key-present: keep the old value when the key is absent. -/
def applyField {α : Type} : Option α → α → α
  | some v, _ => v
  | none, old => old

/-- BackupScheduler.update_schedule: unknown id returns none and leaves the
state alone.  Otherwise every provided field except id and created_at is
written onto the schedule, then updated_at is stamped with the current time
and next_run is recomputed; the result is stored back and returned. -/
def update_schedule (st : SchedulerState) (sid : String) (u : ScheduleUpdates)
    (now : Nat) : Option ScheduleConfig × SchedulerState :=
  match lookupA sid st.schedules with
  | none => (none, st)
  | some s =>
    let merged : ScheduleConfig :=
      { id := s.id
        name := applyField u.name s.name
        description := applyField u.description s.description
        backup_types := applyField u.backup_types s.backup_types
        schedule_type := applyField u.schedule_type s.schedule_type
        status := applyField u.status s.status
        cron_expression := applyField u.cron_expression s.cron_expression
        interval_minutes := applyField u.interval_minutes s.interval_minutes
        time_of_day := applyField u.time_of_day s.time_of_day
        days_of_week := applyField u.days_of_week s.days_of_week
        days_of_month := applyField u.days_of_month s.days_of_month
        run_date := applyField u.run_date s.run_date
        created_at := s.created_at
        updated_at := applyField u.updated_at s.updated_at
        last_run := applyField u.last_run s.last_run
        next_run := applyField u.next_run s.next_run
        run_count := applyField u.run_count s.run_count
        last_status := applyField u.last_status s.last_status
        retry_on_failure := applyField u.retry_on_failure s.retry_on_failure
        max_retries := applyField u.max_retries s.max_retries
        notification_email := applyField u.notification_email s.notification_email
        sequential_execution := applyField u.sequential_execution s.sequential_execution }
    let final :=
      { merged with
          updated_at := now
          next_run := calculate_next_run merged now }
    (some final, { st with schedules := updateA sid final st.schedules })

/-- Where a dispatched firing of _execute_scheduled_backup stands.  The
coroutine runs atomically between its await points: the guard checks and the
gate acquisition (lines 222-237 of scheduler.py) contain no await, so they
form one atomic step; the invocation phase spans the awaited callbacks; the
finally block releases the gate. -/
inductive FiringPhase
  | ready
  | invoking
  | finished

deriving instance DecidableEq for FiringPhase

/-- The joint state of the global backup-in-progress gate and two
concurrently dispatched firings. -/
structure GateState where
  gate : Bool
  p1 : FiringPhase
  p2 : FiringPhase

deriving instance DecidableEq for GateState

/-- Interleaving semantics of two dispatched firings of
_execute_scheduled_backup.  skip: the firing observes the gate already set,
logs, and returns without invoking the callback and without queueing.
enter: the firing observes the gate clear and sets it in the same atomic
step (no await separates the check from the assignment), entering the
invocation phase.  exit: the firing leaves the invocation phase on any
path, success or exception, and the finally block clears the gate. -/
inductive FireStep : GateState → GateState → Prop
  | skip1 (g : GateState) : g.p1 = .ready → g.gate = true →
      FireStep g { g with p1 := .finished }
  | enter1 (g : GateState) : g.p1 = .ready → g.gate = false →
      FireStep g { g with gate := true, p1 := .invoking }
  | exit1 (g : GateState) : g.p1 = .invoking →
      FireStep g { g with gate := false, p1 := .finished }
  | skip2 (g : GateState) : g.p2 = .ready → g.gate = true →
      FireStep g { g with p2 := .finished }
  | enter2 (g : GateState) : g.p2 = .ready → g.gate = false →
      FireStep g { g with gate := true, p2 := .invoking }
  | exit2 (g : GateState) : g.p2 = .invoking →
      FireStep g { g with gate := false, p2 := .finished }

/-- Initial state: gate clear, both firings dispatched and about to run
their guard checks. -/
def gateInit : GateState :=
  { gate := false, p1 := .ready, p2 := .ready }

/-- The BackupType enum of main.py. -/
inductive BackupType
  | mongodb
  | milvus
  | postgres
  | additional
  | global

deriving instance DecidableEq for BackupType

/-- Underlying string value of a BackupType member. -/
def BackupType.value : BackupType → String
  | .mongodb => "mongodb"
  | .milvus => "milvus"
  | .postgres => "postgres"
  | .additional => "additional"
  | .global => "global"

/-- One record of the backup_tasks dict of main.py. -/
structure TaskRecord where
  task_id : List Char
  backup_type : String
  status : String
  started_at : Nat
  completed_at : Option Nat
  output : List String
  error : Option String

deriving instance DecidableEq for TaskRecord

/-- The task id generated by the start_backup endpoint:
backup_<type>_<now formatted as YYYYmmdd_HHMMSS>.  The formatted timestamp
is a parameter (its second-level resolution is the point of claim C7);
strings are embedded as their character lists. -/
def backup_task_id (bt : BackupType) (ts : List Char) : List Char :=
  ("backup_" ++ bt.value ++ "_").toList ++ ts

/-- The dispatch core of the start_backup endpoint of main.py: generate the
task id from the backup type and the formatted current time, store a fresh
pending record under that id in backup_tasks, and hand the id back.  The
asynchronous run_backup_script invocation is started on the stored id. -/
def start_backup (tasks : List (List Char × TaskRecord)) (bt : BackupType)
    (ts : List Char) (startedAt : Nat) : List (List Char × TaskRecord) × List Char :=
  let tid := backup_task_id bt ts
  let record : TaskRecord :=
    { task_id := tid
      backup_type := bt.value
      status := "pending"
      started_at := startedAt
      completed_at := none
      output := []
      error := none }
  (insertA tid record tasks, tid)

/-- One line-append step of run_backup_script: the runner driving task tid
appends one decoded output line to the record stored under its id. -/
def appendTaskOutput (tasks : List (List Char × TaskRecord)) (tid : List Char)
    (line : String) : List (List Char × TaskRecord) :=
  modifyA tid (fun r => { r with output := r.output ++ [line] }) tasks

/-- The gate invariant: the backup-in-progress flag is set exactly while
some firing is in its invocation phase, and never are two firings in that
phase together. -/
def gateInv (g : GateState) : Prop :=
  (g.gate = true ↔ (g.p1 = FiringPhase.invoking ∨ g.p2 = FiringPhase.invoking)) ∧
    ¬(g.p1 = FiringPhase.invoking ∧ g.p2 = FiringPhase.invoking)

/-- Concrete daily schedule (02:00, active, stale stored next_run). -/
def dailySched : ScheduleConfig :=
  { id := "sid1"
    name := "daily backup"
    description := ""
    backup_types := ["mongodb"]
    schedule_type := .daily
    status := .active
    cron_expression := none
    interval_minutes := none
    time_of_day := some (2, 0)
    days_of_week := none
    days_of_month := none
    run_date := none
    created_at := 0
    updated_at := 0
    last_run := none
    next_run := some 50
    run_count := 0
    last_status := none
    retry_on_failure := true
    max_retries := 3
    notification_email := none
    sequential_execution := true }

/-- Concrete scheduler state holding dailySched, idle gate, empty history
with the source's default cap of 100. -/
def st0 : SchedulerState :=
  { schedules := [("sid1", dailySched)]
    history := { max_entries := 100, entries := [] }
    running_backup := false }

/-- A one-shot schedule whose configured datetime (minute 100) has passed
and which has already fired once. -/
def onceExhausted : ScheduleConfig :=
  { id := "sid2"
    name := "one shot"
    description := ""
    backup_types := ["mongodb"]
    schedule_type := .once
    status := .active
    cron_expression := none
    interval_minutes := none
    time_of_day := none
    days_of_week := none
    days_of_month := none
    run_date := some 100
    created_at := 0
    updated_at := 0
    last_run := some 100
    next_run := some 100
    run_count := 1
    last_status := some "success"
    retry_on_failure := true
    max_retries := 3
    notification_email := none
    sequential_execution := true }

/-- A paused schedule and a state holding it with the gate clear. -/
def pausedSched : ScheduleConfig :=
  { dailySched with id := "p1", status := .paused }

/-- State holding only pausedSched, gate clear. -/
def stPaused : SchedulerState :=
  { schedules := [("p1", pausedSched)]
    history := { max_entries := 100, entries := [] }
    running_backup := false }

/-- A serialized record that parses back (the persisted form of
dailySched). -/
def goodRaw : RawSchedule :=
  to_dict dailySched

/-- A serialized record whose stored recurrence kind is not a member of the
ScheduleType enum, so from_dict raises. -/
def badRaw : RawSchedule :=
  { to_dict dailySched with id := "bad", schedule_type := "fortnightly" }

/-- Two concrete history entries and a history filled to a cap of 2. -/
def entA : HistoryEntry :=
  { eid := "a"
    schedule_id := "s"
    schedule_name := "n"
    backup_types := ["mongodb"]
    status := "success"
    duration_seconds := 1
    message := ""
    timestamp := 10 }

/-- Second concrete history entry (the oldest one, at the tail). -/
def entB : HistoryEntry :=
  { entA with eid := "b", timestamp := 5 }

/-- History at its cap: two entries, max_entries 2. -/
def histFull : ScheduleHistory :=
  { max_entries := 2, entries := [entA, entB] }

/-- The empty updates dictionary. -/
def noUpdates : ScheduleUpdates :=
  { id := none
    name := none
    description := none
    backup_types := none
    schedule_type := none
    status := none
    cron_expression := none
    interval_minutes := none
    time_of_day := none
    days_of_week := none
    days_of_month := none
    run_date := none
    created_at := none
    updated_at := none
    last_run := none
    next_run := none
    run_count := none
    last_status := none
    retry_on_failure := none
    max_retries := none
    notification_email := none
    sequential_execution := none }

/-- An updates dictionary renaming the schedule and also trying to overwrite
the immutable id and created_at fields. -/
def u0 : ScheduleUpdates :=
  { noUpdates with id := some "hacked", created_at := some 777, name := some "renamed" }

/-- A formatted second-resolution timestamp, as strftime produces it. -/
def ts0 : List Char :=
  "20240101_120000".toList

/-- First manual mongodb dispatch against an empty task map. -/
def tasks1 : List (List Char × TaskRecord) :=
  (start_backup [] BackupType.mongodb ts0 0).1

/-- The task id handed back by the first dispatch. -/
def tid1 : List Char :=
  (start_backup [] BackupType.mongodb ts0 0).2

/-- Second manual mongodb dispatch, same formatted second, a moment later. -/
def tasks2 : List (List Char × TaskRecord) :=
  (start_backup tasks1 BackupType.mongodb ts0 5).1

/-- The task id handed back by the second dispatch. -/
def tid2 : List Char :=
  (start_backup tasks1 BackupType.mongodb ts0 5).2

/-- A successful fuelled search never returns a minute before its start. -/
theorem searchFrom_le {p : Nat → Bool} {fuel start c : Nat}
    (h : searchFrom p fuel start = some c) : start ≤ c := by
  induction fuel generalizing start with
  | zero => simp [searchFrom] at h
  | succ n ih =>
    simp only [searchFrom] at h
    split at h
    · cases h
      exact Nat.le_refl _
    · have := ih h
      omega

/-- The fuelled search succeeds when some minute within the fuel window
satisfies the predicate. -/
theorem searchFrom_isSome {p : Nat → Bool} (fuel start k : Nat)
    (hk : k < fuel) (hp : p (start + k) = true) :
    (searchFrom p fuel start).isSome := by
  induction fuel generalizing start k with
  | zero => omega
  | succ n ih =>
    simp only [searchFrom]
    split
    · rfl
    · rename_i hps
      cases k with
      | zero =>
        rw [Nat.add_zero] at hp
        exact absurd hp hps
      | succ j =>
        have harg : start + 1 + j = start + (j + 1) := by omega
        exact ih (start + 1) j (by omega) (by rw [harg]; exact hp)

/-- Every minute-of-day target below 1440 is hit within 1441 minutes of any
start minute. -/
theorem dailyReachable (target a : Nat) (ht : target < 1440) :
    ∃ k, k < 1441 ∧ (a + k) % 1440 = target := by
  refine ⟨(target + 1440 - a % 1440) % 1440, ?_, ?_⟩ <;> omega

/-- Every (minute-of-day, weekday) pair is hit within 11521 minutes of any
start minute (weekday convention: day index plus 3, modulo 7). -/
theorem weeklyReachable (target d a : Nat) (ht : target < 1440) (hd : d < 7) :
    ∃ k, k < 11521 ∧ (a + k) % 1440 = target ∧ ((a + k) / 1440 + 3) % 7 = d := by
  have h1 : (a + ((target + 1440 - a % 1440) % 1440)) % 1440 = target := by omega
  set v := a + ((target + 1440 - a % 1440) % 1440) with hv
  have hva : a ≤ v ∧ v < a + 1440 := by omega
  set m := (d + 7 - (v / 1440 + 3) % 7) % 7 with hm
  have hm7 : m < 7 := by omega
  refine ⟨v + 1440 * m - a, by omega, ?_, ?_⟩
  · have harg : a + (v + 1440 * m - a) = v + 1440 * m := by omega
    rw [harg]
    omega
  · have harg : a + (v + 1440 * m - a) = v + 1440 * m := by omega
    rw [harg]
    omega

/-- Replacing the value under a key that is present makes lookup return the
new value. -/
theorem lookupA_updateA_of_mem {κ α : Type} [DecidableEq κ] {k : κ} (v : α)
    {l : List (κ × α)} {w : α} (h : lookupA k l = some w) :
    lookupA k (updateA k v l) = some v := by
  induction l with
  | nil => simp [lookupA] at h
  | cons kv rest ih =>
    obtain ⟨k', w'⟩ := kv
    by_cases hk : k = k'
    · simp [lookupA, updateA, hk]
    · simp only [lookupA, updateA, if_neg hk] at h ⊢
      exact ih h

/-- applyField with an absent key keeps the old value. -/
theorem applyField_none {α : Type} {o : Option α} {x : α} (h : o = none) :
    applyField o x = x := by
  rw [h]
  rfl

/-- applyField with a present key installs the new value. -/
theorem applyField_some {α : Type} {o : Option α} {v x : α} (h : o = some v) :
    applyField o x = v := by
  rw [h]
  rfl

/-- When every record parses, the load loop keeps them all in order. -/
theorem loadLoop_all (rs : List RawSchedule) (h : ∀ r ∈ rs, (from_dict r).isSome) :
    loadLoop rs = rs.filterMap from_dict := by
  induction rs with
  | nil => rfl
  | cons r rest ih =>
    have hr : (from_dict r).isSome := h r (by simp)
    obtain ⟨s, hs⟩ := Option.isSome_iff_exists.mp hr
    simp only [loadLoop, List.filterMap_cons, hs]
    exact congrArg _ (ih fun r' hr' => h r' (by simp [hr']))

/-- A non-parsing record aborts the load loop: only the parsable prefix
before it survives. -/
theorem loadLoop_break (rs1 : List RawSchedule) (bad : RawSchedule)
    (rs2 : List RawSchedule) (h : ∀ r ∈ rs1, (from_dict r).isSome)
    (hbad : from_dict bad = none) :
    loadLoop (rs1 ++ bad :: rs2) = rs1.filterMap from_dict := by
  induction rs1 with
  | nil => simp [loadLoop, hbad]
  | cons r rest ih =>
    have hr : (from_dict r).isSome := h r (by simp)
    obtain ⟨s, hs⟩ := Option.isSome_iff_exists.mp hr
    simp only [List.cons_append, loadLoop, List.filterMap_cons, hs]
    exact congrArg _ (ih fun r' hr' => h r' (by simp [hr']))

/-- One interleaving step of the two dispatched firings preserves the gate
invariant. -/
theorem gateInv_step {g g' : GateState} (hinv : gateInv g) (hstep : FireStep g g') :
    gateInv g' := by
  obtain ⟨hiff, hmux⟩ := hinv
  cases hstep with
  | skip1 h1 hg =>
    have h2 : g.p2 = FiringPhase.invoking := by
      rcases hiff.mp hg with h | h
      · rw [h1] at h
        exact absurd h (by simp)
      · exact h
    constructor
    · simp [hg, h2]
    · simp [h1]
  | enter1 h1 hg =>
    constructor
    · simp
    · have h2 : g.p2 ≠ FiringPhase.invoking := fun h => by
        have := hiff.mpr (Or.inr h)
        rw [this] at hg
        cases hg
      simp [h2]
  | exit1 h1 =>
    have h2 : g.p2 ≠ FiringPhase.invoking := fun h => hmux ⟨h1, h⟩
    constructor
    · simp [h2]
    · simp
  | skip2 h1 hg =>
    have h2 : g.p1 = FiringPhase.invoking := by
      rcases hiff.mp hg with h | h
      · exact h
      · rw [h1] at h
        exact absurd h (by simp)
    constructor
    · simp [hg, h2]
    · simp [h1]
  | enter2 h1 hg =>
    constructor
    · simp
    · have h2 : g.p1 ≠ FiringPhase.invoking := fun h => by
        have := hiff.mpr (Or.inl h)
        rw [this] at hg
        cases hg
      simp [h2]
  | exit2 h1 =>
    have h2 : g.p1 ≠ FiringPhase.invoking := fun h => hmux ⟨h, h1⟩
    constructor
    · simp [h2]
    · simp

/-- C5: for every sequence of ScheduleHistory.add calls the entries list
never exceeds max_entries (each single add yields a list within the cap,
whatever the previous list was); each add inserts the new entry at the
head, and an add against a full history drops exactly the tail entry,
never the new head. -/
theorem history_add_spec (h : ScheduleHistory) (sid sname : String)
    (bts : List String) (stat : String) (dur : Nat) (msg eid : String) (now : Nat) :
    (h.add sid sname bts stat dur msg eid now).entries.length ≤ h.max_entries ∧
    (0 < h.max_entries →
      (h.add sid sname bts stat dur msg eid now).entries.head? =
        some ⟨eid, sid, sname, bts, stat, dur, msg, now⟩) ∧
    (h.entries.length = h.max_entries → 0 < h.max_entries →
      (h.add sid sname bts stat dur msg eid now).entries =
        ⟨eid, sid, sname, bts, stat, dur, msg, now⟩ :: h.entries.dropLast) := by
  refine ⟨?_, ?_, ?_⟩
  · simp only [ScheduleHistory.add]
    split
    · rw [List.length_take]
      omega
    · rename_i hle
      simp only [List.length_cons] at hle ⊢
      omega
  · intro hmax
    simp only [ScheduleHistory.add]
    split
    · cases hmk : h.max_entries with
      | zero => omega
      | succ k =>
        rw [List.take_succ_cons]
        rfl
    · rfl
  · intro hlen hmax
    simp only [ScheduleHistory.add]
    rw [if_pos (by simp only [List.length_cons]; omega)]
    cases hmk : h.max_entries with
    | zero => omega
    | succ k =>
      simp only [List.take_succ_cons, List.dropLast_eq_take, hlen, hmk]
      simp

/-- Witness for C5: a history at its cap of 2 takes the new entry at the
head and drops exactly the old tail entry. -/
theorem history_add_spec_witness :
    (histFull.add "s" "n" ["mongodb"] "failed" 5 "m" "c" 9).entries.length ≤
      histFull.max_entries ∧
    (histFull.add "s" "n" ["mongodb"] "failed" 5 "m" "c" 9).entries.head? =
      some ⟨"c", "s", "n", ["mongodb"], "failed", 5, "m", 9⟩ ∧
    (histFull.add "s" "n" ["mongodb"] "failed" 5 "m" "c" 9).entries =
      ⟨"c", "s", "n", ["mongodb"], "failed", 5, "m", 9⟩ :: histFull.entries.dropLast := by
  obtain ⟨a, b, c⟩ := history_add_spec histFull "s" "n" ["mongodb"] "failed" 5 "m" "c" 9
  exact ⟨a, b (by decide), c (by decide) (by decide)⟩

/-- C6: serialising a ScheduleConfig the way _save_schedules does and
reconstructing it with from_dict the way _load_schedules does yields the
original schedule field for field, enumerated values included. -/
theorem schedule_roundtrip (s : ScheduleConfig) : from_dict (to_dict s) = some s := by
  obtain ⟨i, n, d, bt, ty, stt, ce, im, tod, dw, dm, rd, ca, ua, lr, nr, rc, ls, rof,
    mr, ne, se⟩ := s
  cases ty <;> cases stt <;> rfl

/-- C1: in every state reachable from two concurrently dispatched firings,
never are both in the invocation phase (at most one backup invocation is in
flight), and the gate is set exactly while one of them is in flight — a
firing that finds the gate set finishes without invoking and without
queueing, and every exit from the invocation phase clears the gate. -/
theorem gate_mutual_exclusion (g : GateState)
    (h : Relation.ReflTransGen FireStep gateInit g) :
    ¬(g.p1 = FiringPhase.invoking ∧ g.p2 = FiringPhase.invoking) ∧
    (g.gate = true ↔ (g.p1 = FiringPhase.invoking ∨ g.p2 = FiringPhase.invoking)) := by
  have hinv : gateInv g := by
    induction h with
    | refl => simp [gateInv, gateInit]
    | tail hsteps hstep ih => exact gateInv_step ih hstep
  exact ⟨hinv.2, hinv.1⟩

/-- Witness for C1 at a concrete reachable state: the first firing has
atomically taken the gate and is invoking; the mutual-exclusion and
gate-tracking conclusions hold there. -/
theorem gate_mutual_exclusion_witness :
    (¬(FiringPhase.invoking = FiringPhase.invoking ∧
        FiringPhase.ready = FiringPhase.invoking) ∧
      (true = true ↔ (FiringPhase.invoking = FiringPhase.invoking ∨
        FiringPhase.ready = FiringPhase.invoking))) :=
  gate_mutual_exclusion { gate := true, p1 := .invoking, p2 := .ready }
    (Relation.ReflTransGen.single (FireStep.enter1 gateInit rfl rfl))

/-- C3 (amended): _calculate_next_run returns, for the five recurring
kinds, only timestamps strictly greater than the reference time (for the
interval kind the reference plus the interval, strictly greater whenever
the interval is positive, as creation-time validation guarantees), and
valid daily and weekly schedules always obtain one; a one-shot schedule
returns its stored run_date unchanged — even once that moment has passed
and the job has fired, where the claim expected none. -/
theorem calculate_next_run_amended (s : ScheduleConfig) (now : Nat) :
    (s.schedule_type = ScheduleType.once → calculate_next_run s now = s.run_date) ∧
    (∀ m, s.schedule_type = ScheduleType.interval → s.interval_minutes = some m →
      calculate_next_run s now = some (now + m) ∧ (0 < m → now < now + m)) ∧
    (∀ c, s.schedule_type ≠ ScheduleType.once → s.schedule_type ≠ ScheduleType.interval →
      calculate_next_run s now = some c → now < c) ∧
    (∀ h mi, s.schedule_type = ScheduleType.daily → s.time_of_day = some (h, mi) →
      h < 24 → mi < 60 → (calculate_next_run s now).isSome = true) ∧
    (∀ h mi ds, s.schedule_type = ScheduleType.weekly → s.time_of_day = some (h, mi) →
      s.days_of_week = some ds → h < 24 → mi < 60 → ds ≠ [] → (∀ d ∈ ds, d < 7) →
      (calculate_next_run s now).isSome = true) := by
  refine ⟨?_, ?_, ?_, ?_, ?_⟩
  · intro ht
    simp [calculate_next_run, ht]
  · intro m ht hm
    exact ⟨by simp [calculate_next_run, ht, hm], fun hmpos => by omega⟩
  · intro c hto hti hc
    cases hty : s.schedule_type with
    | once => exact absurd hty hto
    | interval => exact absurd hty hti
    | cron =>
      cases hce : s.cron_expression with
      | none => simp [calculate_next_run, hty, hce] at hc
      | some ce =>
        simp only [calculate_next_run, hty, hce] at hc
        rw [nextCron] at hc
        have := searchFrom_le hc
        omega
    | daily =>
      cases htod : s.time_of_day with
      | none => simp [calculate_next_run, hty, htod] at hc
      | some hm =>
        obtain ⟨h, mi⟩ := hm
        simp only [calculate_next_run, hty, htod] at hc
        rw [nextDaily] at hc
        split at hc
        · have := searchFrom_le hc
          omega
        · cases hc
    | weekly =>
      cases htod : s.time_of_day with
      | none => simp [calculate_next_run, hty, htod] at hc
      | some hm =>
        obtain ⟨h, mi⟩ := hm
        cases hdw : s.days_of_week with
        | none => simp [calculate_next_run, hty, htod, hdw] at hc
        | some ds =>
          simp only [calculate_next_run, hty, htod, hdw] at hc
          rw [nextWeekly] at hc
          split at hc
          · have := searchFrom_le hc
            omega
          · cases hc
    | monthly =>
      cases htod : s.time_of_day with
      | none => simp [calculate_next_run, hty, htod] at hc
      | some hm =>
        obtain ⟨h, mi⟩ := hm
        cases hdm : s.days_of_month with
        | none => simp [calculate_next_run, hty, htod, hdm] at hc
        | some ds =>
          simp only [calculate_next_run, hty, htod, hdm] at hc
          rw [nextMonthly] at hc
          split at hc
          · have := searchFrom_le hc
            omega
          · cases hc
  · intro h mi hty htod h24 h60
    simp only [calculate_next_run, hty, htod]
    rw [nextDaily, if_pos ⟨h24, h60⟩]
    obtain ⟨k, hk, hkeq⟩ := dailyReachable (60 * h + mi) (now + 1) (by omega)
    exact searchFrom_isSome 1441 (now + 1) k hk
      (by simp only [fireDaily, beq_iff_eq]; exact hkeq)
  · intro h mi ds hty htod hdw h24 h60 hne hall
    simp only [calculate_next_run, hty, htod, hdw]
    rw [nextWeekly, if_pos ⟨h24, h60, hne, hall⟩]
    cases ds with
    | nil => exact absurd rfl hne
    | cons d rest =>
      obtain ⟨k, hk, hmod, hdow⟩ :=
        weeklyReachable (60 * h + mi) d (now + 1) (by omega) (hall d (by simp))
      refine searchFrom_isSome 11521 (now + 1) k hk ?_
      simp only [fireWeekly, dowMonday0, Bool.and_eq_true, beq_iff_eq]
      refine ⟨hmod, ?_⟩
      rw [hdow]
      simp

/-- Counterexample for C3: a one-shot schedule whose configured minute 100
has passed at reference time 1000 and which has already fired (run_count 1)
still gets its stale run_date back from _calculate_next_run — a timestamp
that is not none and not greater than the reference time. -/
theorem calculate_next_run_once_counterexample :
    calculate_next_run onceExhausted 1000 = some 100 ∧ ¬ 1000 < 100 :=
  ⟨rfl, by omega⟩

/-- Witness for C3: the once branch hands back the stored run_date, and a
valid daily schedule always obtains a next fire time. -/
theorem calculate_next_run_amended_witness :
    calculate_next_run onceExhausted 7 = onceExhausted.run_date ∧
    (calculate_next_run dailySched 1000).isSome = true :=
  ⟨(calculate_next_run_amended onceExhausted 7).1 rfl,
   (calculate_next_run_amended dailySched 1000).2.2.2.1 2 0 rfl rfl (by omega) (by omega)⟩

/-- C4: one firing whose callbacks all complete sets last_status to
success, increments run_count by exactly one, stamps last_run with the
completion time, stores the recomputed next_run, leaves the status alone,
and appends exactly one success entry at the head of the history. -/
theorem execute_success_spec (st : SchedulerState) (sid : String) (startTime now : Nat)
    (eid : String) (sched : ScheduleConfig)
    (hfound : lookupA sid st.schedules = some sched)
    (hactive : sched.status = ScheduleStatus.active)
    (hgate : st.running_backup = false)
    (hcap : st.history.entries.length < st.history.max_entries) :
    ∃ sched',
      lookupA sid
          (execute_scheduled_backup st sid .success startTime now eid).1.schedules =
        some sched' ∧
      sched'.last_status = some "success" ∧
      sched'.run_count = sched.run_count + 1 ∧
      sched'.last_run = some now ∧
      sched'.next_run = calculate_next_run sched now ∧
      sched'.status = sched.status ∧
      (execute_scheduled_backup st sid .success startTime now eid).1.history.entries.head? =
        some ⟨eid, sid, sched.name, sched.backup_types, "success", now - startTime,
          "Backup completado correctamente", now⟩ ∧
      (execute_scheduled_backup st sid .success startTime now eid).1.history.entries.length =
        st.history.entries.length + 1 := by
  simp only [execute_scheduled_backup, hfound]
  rw [if_neg (by simp [hactive])]
  rw [if_neg (by simp [hgate])]
  refine ⟨_, lookupA_updateA_of_mem _ hfound, rfl, rfl, rfl, rfl, rfl, ?_, ?_⟩
  · simp only [ScheduleHistory.add]
    rw [if_neg (by simp only [List.length_cons]; omega)]
    rfl
  · simp only [ScheduleHistory.add]
    rw [if_neg (by simp only [List.length_cons]; omega)]
    simp

/-- Witness for C4 at the concrete state st0: the stored schedule gains one
run, success status, the completion stamp and the recomputed next_run, and
one success entry heads the history. -/
theorem execute_success_spec_witness :
    ∃ sched',
      lookupA "sid1"
          (execute_scheduled_backup st0 "sid1" .success 990 1000 "e1").1.schedules =
        some sched' ∧
      sched'.last_status = some "success" ∧
      sched'.run_count = dailySched.run_count + 1 ∧
      sched'.last_run = some 1000 ∧
      sched'.next_run = calculate_next_run dailySched 1000 ∧
      sched'.status = dailySched.status ∧
      (execute_scheduled_backup st0 "sid1" .success 990 1000 "e1").1.history.entries.head? =
        some ⟨"e1", "sid1", dailySched.name, dailySched.backup_types, "success", 1000 - 990,
          "Backup completado correctamente", 1000⟩ ∧
      (execute_scheduled_backup st0 "sid1" .success 990 1000 "e1").1.history.entries.length =
        st0.history.entries.length + 1 :=
  execute_success_spec st0 "sid1" 990 1000 "e1" dailySched rfl rfl rfl (by decide)

/-- C2 (amended): a firing whose callback raises sets last_status to
failed and appends exactly one failure entry carrying the error message;
the schedule stays in the store with its status, run_count, last_run — and,
against the claim, also its next_run — unchanged (the failure branch never
recomputes next_run). -/
theorem execute_failure_amended (st : SchedulerState) (sid : String) (startTime now : Nat)
    (eid msg : String) (sched : ScheduleConfig)
    (hfound : lookupA sid st.schedules = some sched)
    (hactive : sched.status = ScheduleStatus.active)
    (hgate : st.running_backup = false)
    (hcap : st.history.entries.length < st.history.max_entries) :
    ∃ sched',
      lookupA sid
          (execute_scheduled_backup st sid (.failure msg) startTime now eid).1.schedules =
        some sched' ∧
      sched'.last_status = some "failed" ∧
      sched'.next_run = sched.next_run ∧
      sched'.run_count = sched.run_count ∧
      sched'.last_run = sched.last_run ∧
      sched'.status = sched.status ∧
      (execute_scheduled_backup st sid (.failure msg) startTime now eid).1.history.entries.head? =
        some ⟨eid, sid, sched.name, sched.backup_types, "failed", now - startTime, msg, now⟩ ∧
      (execute_scheduled_backup st sid (.failure msg) startTime now eid).1.history.entries.length =
        st.history.entries.length + 1 := by
  simp only [execute_scheduled_backup, hfound]
  rw [if_neg (by simp [hactive])]
  rw [if_neg (by simp [hgate])]
  refine ⟨_, lookupA_updateA_of_mem _ hfound, rfl, rfl, rfl, rfl, rfl, ?_, ?_⟩
  · simp only [ScheduleHistory.add]
    rw [if_neg (by simp only [List.length_cons]; omega)]
    rfl
  · simp only [ScheduleHistory.add]
    rw [if_neg (by simp only [List.length_cons]; omega)]
    simp

set_option maxRecDepth 8000 in
/-- Counterexample for C2: after a failing firing of the concrete daily
schedule at reference time 1000, the stored next_run is still the stale 50
while recomputing would give 1560 — the failure path does not recompute and
store next_run as the claim states. -/
theorem execute_failure_next_run_counterexample :
    (lookupA "sid1"
        (execute_scheduled_backup st0 "sid1" (CallbackOutcome.failure "boom") 990 1000
          "e1").1.schedules).map ScheduleConfig.next_run = some (some 50) ∧
    calculate_next_run dailySched 1000 = some 1560 ∧
    ¬ (50 : Nat) = 1560 :=
  ⟨by decide, by decide, by omega⟩

/-- Witness for C2 at the concrete state st0 with a raising callback. -/
theorem execute_failure_amended_witness :
    ∃ sched',
      lookupA "sid1"
          (execute_scheduled_backup st0 "sid1" (.failure "boom") 990 1000 "e1").1.schedules =
        some sched' ∧
      sched'.last_status = some "failed" ∧
      sched'.next_run = dailySched.next_run ∧
      sched'.run_count = dailySched.run_count ∧
      sched'.last_run = dailySched.last_run ∧
      sched'.status = dailySched.status ∧
      (execute_scheduled_backup st0 "sid1" (.failure "boom") 990 1000 "e1").1.history.entries.head? =
        some ⟨"e1", "sid1", dailySched.name, dailySched.backup_types, "failed", 1000 - 990,
          "boom", 1000⟩ ∧
      (execute_scheduled_backup st0 "sid1" (.failure "boom") 990 1000 "e1").1.history.entries.length =
        st0.history.entries.length + 1 :=
  execute_failure_amended st0 "sid1" 990 1000 "e1" "boom" dailySched rfl rfl rfl (by decide)

/-- C8 (amended): startup loading is not per-record fault tolerant — the
first unparsable record aborts the loop, so exactly the parsable records
before it are loaded and everything from the bad record on is dropped; when
the whole file is unreadable, startup proceeds with zero schedules; a fully
parsable file loads every record in order. -/
theorem load_schedules_amended :
    load_schedules none = [] ∧
    (∀ rs : List RawSchedule, (∀ r ∈ rs, (from_dict r).isSome) →
      load_schedules (some rs) = rs.filterMap from_dict) ∧
    (∀ (rs1 : List RawSchedule) (bad : RawSchedule) (rs2 : List RawSchedule),
      (∀ r ∈ rs1, (from_dict r).isSome) → from_dict bad = none →
      load_schedules (some (rs1 ++ bad :: rs2)) = rs1.filterMap from_dict) := by
  refine ⟨rfl, ?_, ?_⟩
  · intro rs h
    exact loadLoop_all rs h
  · intro rs1 bad rs2 h hbad
    exact loadLoop_break rs1 bad rs2 h hbad

/-- Counterexample for C8: a persisted set with an unparsable first record
and a perfectly parsable second record loads nothing at all — the parsable
record is not loaded, against the claim. -/
theorem load_schedules_counterexample :
    from_dict badRaw = none ∧ (from_dict goodRaw).isSome = true ∧
    load_schedules (some [badRaw, goodRaw]) = [] :=
  ⟨rfl, rfl, rfl⟩

/-- Witness for C8: the parsable record before the bad one is loaded, the
one after it is dropped. -/
theorem load_schedules_amended_witness :
    load_schedules (some ([goodRaw] ++ badRaw :: [goodRaw])) =
      [goodRaw].filterMap from_dict :=
  load_schedules_amended.2.2 [goodRaw] badRaw [goodRaw] (by decide) rfl

/-- C9 (amended): run_now acknowledges immediately — true exactly when the
id exists, independent of the spawned firing's outcome — and dispatches the
firing separately; for an active schedule the dispatched firing is guarded
by the gate alone: with the gate clear it enters the invocation phase, with
the gate set it skips and changes nothing.  (For a paused or disabled
schedule the status check, not the gate, blocks the invocation.) -/
theorem run_now_amended (st : SchedulerState) (sid : String) :
    ((lookupA sid st.schedules).isSome → run_now st sid = (true, some sid)) ∧
    (lookupA sid st.schedules = none → run_now st sid = (false, none)) ∧
    (∀ sched, lookupA sid st.schedules = some sched →
      sched.status = ScheduleStatus.active →
      (∀ outcome startTime now eid, st.running_backup = false →
        (execute_scheduled_backup st sid outcome startTime now eid).2 = true) ∧
      (∀ outcome startTime now eid, st.running_backup = true →
        execute_scheduled_backup st sid outcome startTime now eid = (st, false))) := by
  refine ⟨?_, ?_, ?_⟩
  · intro h
    simp [run_now, h]
  · intro h
    simp [run_now, h]
  · intro sched hfound hactive
    constructor
    · intro outcome startTime now eid hgate
      simp only [execute_scheduled_backup, hfound]
      rw [if_neg (by simp [hactive])]
      rw [if_neg (by simp [hgate])]
      cases outcome <;> rfl
    · intro outcome startTime now eid hgate
      simp only [execute_scheduled_backup, hfound]
      rw [if_neg (by simp [hactive])]
      rw [if_pos hgate]

/-- Counterexample for C9: for the existing but paused schedule p1 the call
acknowledges with true, yet with the gate clear the dispatched firing
performs no invocation and leaves the state untouched — it is blocked by
the status check, not only by the global gate as the claim states. -/
theorem run_now_paused_counterexample :
    run_now stPaused "p1" = (true, some "p1") ∧
    stPaused.running_backup = false ∧
    execute_scheduled_backup stPaused "p1" CallbackOutcome.success 0 5 "e" =
      (stPaused, false) :=
  ⟨rfl, rfl, rfl⟩

/-- Witness for C9: for the active schedule sid1 the acknowledgement is
immediate and the dispatched firing passes the gate. -/
theorem run_now_amended_witness :
    run_now st0 "sid1" = (true, some "sid1") ∧
    (execute_scheduled_backup st0 "sid1" CallbackOutcome.success 990 1000 "e1").2 = true :=
  ⟨(run_now_amended st0 "sid1").1 (by decide),
   ((run_now_amended st0 "sid1").2.2 dailySched rfl rfl).1 CallbackOutcome.success
     990 1000 "e1" rfl⟩

/-- C10: update_schedule never touches id or created_at — even when the
updates dictionary carries entries for them — stamps updated_at with the
current time, recomputes next_run from the merged schedule, installs
exactly the provided fields, and keeps every field whose key is absent at
its prior value. -/
theorem update_schedule_frame (st : SchedulerState) (sid : String) (u : ScheduleUpdates)
    (now : Nat) (s : ScheduleConfig)
    (hfound : lookupA sid st.schedules = some s) :
    ∃ s2,
      (update_schedule st sid u now).1 = some s2 ∧
      lookupA sid (update_schedule st sid u now).2.schedules = some s2 ∧
      s2.id = s.id ∧
      s2.created_at = s.created_at ∧
      s2.updated_at = now ∧
      s2.next_run = calculate_next_run s2 now ∧
      (u.name = none → s2.name = s.name) ∧
      (∀ v, u.name = some v → s2.name = v) ∧
      (u.description = none → s2.description = s.description) ∧
      (∀ v, u.description = some v → s2.description = v) ∧
      (u.backup_types = none → s2.backup_types = s.backup_types) ∧
      (∀ v, u.backup_types = some v → s2.backup_types = v) ∧
      (u.schedule_type = none → s2.schedule_type = s.schedule_type) ∧
      (∀ v, u.schedule_type = some v → s2.schedule_type = v) ∧
      (u.status = none → s2.status = s.status) ∧
      (∀ v, u.status = some v → s2.status = v) ∧
      (u.cron_expression = none → s2.cron_expression = s.cron_expression) ∧
      (∀ v, u.cron_expression = some v → s2.cron_expression = v) ∧
      (u.interval_minutes = none → s2.interval_minutes = s.interval_minutes) ∧
      (∀ v, u.interval_minutes = some v → s2.interval_minutes = v) ∧
      (u.time_of_day = none → s2.time_of_day = s.time_of_day) ∧
      (∀ v, u.time_of_day = some v → s2.time_of_day = v) ∧
      (u.days_of_week = none → s2.days_of_week = s.days_of_week) ∧
      (∀ v, u.days_of_week = some v → s2.days_of_week = v) ∧
      (u.days_of_month = none → s2.days_of_month = s.days_of_month) ∧
      (∀ v, u.days_of_month = some v → s2.days_of_month = v) ∧
      (u.run_date = none → s2.run_date = s.run_date) ∧
      (∀ v, u.run_date = some v → s2.run_date = v) ∧
      (u.last_run = none → s2.last_run = s.last_run) ∧
      (∀ v, u.last_run = some v → s2.last_run = v) ∧
      (u.run_count = none → s2.run_count = s.run_count) ∧
      (∀ v, u.run_count = some v → s2.run_count = v) ∧
      (u.last_status = none → s2.last_status = s.last_status) ∧
      (∀ v, u.last_status = some v → s2.last_status = v) ∧
      (u.retry_on_failure = none → s2.retry_on_failure = s.retry_on_failure) ∧
      (∀ v, u.retry_on_failure = some v → s2.retry_on_failure = v) ∧
      (u.max_retries = none → s2.max_retries = s.max_retries) ∧
      (∀ v, u.max_retries = some v → s2.max_retries = v) ∧
      (u.notification_email = none → s2.notification_email = s.notification_email) ∧
      (∀ v, u.notification_email = some v → s2.notification_email = v) ∧
      (u.sequential_execution = none → s2.sequential_execution = s.sequential_execution) ∧
      (∀ v, u.sequential_execution = some v → s2.sequential_execution = v) := by
  simp only [update_schedule, hfound]
  refine ⟨_, rfl, lookupA_updateA_of_mem _ hfound, rfl, rfl, rfl, rfl,
    fun hv => applyField_none hv, fun v hv => applyField_some hv,
    fun hv => applyField_none hv, fun v hv => applyField_some hv,
    fun hv => applyField_none hv, fun v hv => applyField_some hv,
    fun hv => applyField_none hv, fun v hv => applyField_some hv,
    fun hv => applyField_none hv, fun v hv => applyField_some hv,
    fun hv => applyField_none hv, fun v hv => applyField_some hv,
    fun hv => applyField_none hv, fun v hv => applyField_some hv,
    fun hv => applyField_none hv, fun v hv => applyField_some hv,
    fun hv => applyField_none hv, fun v hv => applyField_some hv,
    fun hv => applyField_none hv, fun v hv => applyField_some hv,
    fun hv => applyField_none hv, fun v hv => applyField_some hv,
    fun hv => applyField_none hv, fun v hv => applyField_some hv,
    fun hv => applyField_none hv, fun v hv => applyField_some hv,
    fun hv => applyField_none hv, fun v hv => applyField_some hv,
    fun hv => applyField_none hv, fun v hv => applyField_some hv,
    fun hv => applyField_none hv, fun v hv => applyField_some hv,
    fun hv => applyField_none hv, fun v hv => applyField_some hv,
    fun hv => applyField_none hv, fun v hv => applyField_some hv⟩

/-- Witness for C10: updating sid1 with a dictionary that renames the
schedule and also tries to overwrite id and created_at leaves both
untouched and keeps the unnamed description field. -/
theorem update_schedule_frame_witness :
    ∃ s2,
      (update_schedule st0 "sid1" u0 123).1 = some s2 ∧
      lookupA "sid1" (update_schedule st0 "sid1" u0 123).2.schedules = some s2 ∧
      s2.id = dailySched.id ∧
      s2.created_at = dailySched.created_at ∧
      s2.description = dailySched.description := by
  obtain ⟨s2, h1, h2, h3, h4, h5, h6, h7, h8, h9, hrest⟩ :=
    update_schedule_frame st0 "sid1" u0 123 dailySched rfl
  exact ⟨s2, h1, h2, h3, h4, h9 rfl⟩

/-- C7 (the code at the failing input): two manual mongodb dispatches whose
formatted timestamps fall in the same clock second receive the same task
id, the second record overwrites the first in the task map (one entry
remains, carrying the second start time), and a line emitted by the second
invocation shows up when polling the first task's id — against the claimed
distinctness and isolation. -/
theorem task_id_collision_bug :
    tid2 = tid1 ∧
    tasks2.length = 1 ∧
    (lookupA tid1 tasks2).map TaskRecord.started_at = some 5 ∧
    (lookupA tid1 (appendTaskOutput tasks2 tid2 "line of the second run")).map
      TaskRecord.output = some ["line of the second run"] :=
  ⟨rfl, rfl, rfl, rfl⟩
